import Mathlib

/-!
# Verification of the Monte Carlo notebooks of `Tabular-RL-with-Python`

Shallow embedding of the two notebooks
`1-monte-carlo-prediction` and `2-monte-carlo-exploring-starts`
(Chapter 5).  Machine reals (`numpy` float64 values such as `0.25`,
`0.9`, `-1`) are modelled as exact rationals; Python dictionaries and
numpy arrays become explicit functions updated with `Function.update`;
the process-wide random source becomes an explicit stream of choices
threaded through each sampling call.

Actions keep the notebooks' fixed order `U, D, L, R` as `Fin 4`
(`0 = U`, `1 = D`, `2 = L`, `3 = R`); states are the cell labels
`0..14` used by the notebooks, where `0` is the terminal label.
-/

namespace TabularRL

/-- Modelled from the spec: the `GridWorld` environment
(`gridWorldEnvironment.py`, imported by both notebooks but not present
in the source tree).  Per §6 and the end-to-end scenario of §8: a
deterministic 4x4 gridworld, cells indexed `0..15` row-major,
non-terminal states `1..14`, both corner cells `0` and `15` are the
terminal state reported as `0`; four actions `U, D, L, R`; a move that
would leave the grid keeps the position unchanged; every transition
yields reward `-1` (the reward recorded in the notebooks' stored
outputs, including on arrival at the terminal cell). -/
def stateTransition (s : ℕ) (a : Fin 4) : ℕ × ℚ :=
  let row := s / 4
  let col := s % 4
  let t : ℕ :=
    if a = 0 then (if row = 0 then s else s - 4)
    else if a = 1 then (if row = 3 then s else s + 4)
    else if a = 2 then (if col = 0 then s else s - 1)
    else (if col = 3 then s else s + 1)
  (if t = 0 ∨ t = 15 then 0 else t, -1)

/-- The accumulation loop shared by all return computations in the
notebooks: starting from `G = 0`, each reward `r` of the list is folded
in left to right as `G ← gamma * (G + r)`. -/
def discountAcc (gamma : ℚ) (rs : List ℚ) : ℚ :=
  rs.foldl (fun G r => gamma * (G + r)) 0

/-- A step of a prediction episode, `(state, reward)`, as produced by
`generate_random_episode`. -/
abbrev PredStep := ℕ × ℚ

/-- A step of a control episode, `(state, action, reward)`, as produced
by `generate_episode`. -/
abbrev CtrlStep := ℕ × Fin 4 × ℚ

/-- The return computed by `first_visit_mc` / `every_visit_mc` for a
visit at index `idx`: translation of
`G = 0; j = 1; while j + idx < len(episode): G = gamma * (G + episode[j + idx][1]); j += 1`,
which folds the rewards at indices `idx+1 .. len-1` through
`G ← gamma * (G + r)`. -/
def predReturn (gamma : ℚ) (epi : List PredStep) (idx : ℕ) : ℚ :=
  discountAcc gamma ((epi.drop (idx + 1)).map Prod.snd)

/-- The reward component of a control step (`episode[j][-1]` in the
notebooks). -/
def ctrlReward (p : CtrlStep) : ℚ := p.2.2

/-- The return computed inside `monte_carlo_es` for a visit at index
`idx`: translation of
`G = 0; for j in range(idx, len(episode)-1): G = env.gamma * (G + episode[j][-1])`,
which folds the rewards at indices `idx .. len-2` through
`G ← gamma * (G + r)`. -/
def mcesReturn (gamma : ℚ) (epi : List CtrlStep) (idx : ℕ) : ℚ :=
  discountAcc gamma (((epi.map ctrlReward).take (epi.length - 1)).drop idx)

/-- From the spec's words (§4.4, quoted by claim C1): the recurrence
"iterate `j` from `i+1` to end, accumulating `G ← γ·(G + reward[j])`",
stated for control steps — the reward at index `i` itself excluded, the
reward at the final index included.  This is the claim-side definition
compared against `mcesReturn`, the one translated from
`monte_carlo_es`. -/
def specReturn3 (gamma : ℚ) (epi : List CtrlStep) (idx : ℕ) : ℚ :=
  discountAcc gamma ((epi.map ctrlReward).drop (idx + 1))

/-- Translation of `np.argmax` on a 4-entry vector: index of the maximum value, the
lowest index winning ties (numpy returns the first occurrence).  The
left-to-right scan "keep the current best, replace it only on strictly
greater" is written with its intermediate bests inlined. -/
def npArgmax (p : Fin 4 → ℚ) : Fin 4 :=
  if p 3 > p (if p 2 > p (if p 1 > p 0 then 1 else 0) then 2
              else if p 1 > p 0 then 1 else 0) then 3
  else if p 2 > p (if p 1 > p 0 then 1 else 0) then 2
  else if p 1 > p 0 then 1 else 0

/-- Translation of `np.delete(np.arange(4), m)`: the three indices other than `m`, in
ascending order, selected by position. -/
def delete4 (m : Fin 4) (c : Fin 3) : Fin 4 :=
  if (c : ℕ) < (m : ℕ) then ⟨c, by omega⟩ else ⟨(c : ℕ) + 1, by omega⟩

/-- The exploration perturbation of the operative `generate_episode`
(the second definition, notebook 2 cell 12), acting on the probability
vector `pr = policy[current_state][1]`:
`pr[np.argmax(pr)] -= .2` followed twice by
`pr[np.random.choice(np.delete(np.arange(4), np.argmax(pr)))] += .1`,
where `np.argmax(pr)` is re-evaluated on the mutated vector before each
of the two additions.  The two random choices among the three non-argmax
indices are passed in explicitly as `c1`, `c2`. -/
def perturb (p : Fin 4 → ℚ) (c1 c2 : Fin 3) : Fin 4 → ℚ :=
  let m0 := npArgmax p
  let p1 := Function.update p m0 (p m0 - 1/5)
  let i1 := delete4 (npArgmax p1) c1
  let p2 := Function.update p1 i1 (p1 i1 + 1/10)
  let i2 := delete4 (npArgmax p2) c2
  Function.update p2 i2 (p2 i2 + 1/10)

/-- A policy: for each state, the probability vector over the four
actions in their fixed order (the `prob` list of the notebooks' policy
dictionaries; the parallel `actions` list is the fixed order `U,D,L,R`
itself). -/
abbrev Policy := ℕ → Fin 4 → ℚ

/-- Function `generate_random_policy`: probability `0.25` on each of the four
actions in every state. -/
def generate_random_policy : Policy := fun _ _ => 1/4

/-- Translation of `sorted` on the three samples of `generate_any_policy`: insertion
sort of the triple `(u 0, u 1, u 2)` into ascending order. -/
def sort3 (u : Fin 3 → ℚ) : ℚ × ℚ × ℚ :=
  if u 0 ≤ u 1 then
    if u 1 ≤ u 2 then (u 0, u 1, u 2)
    else if u 0 ≤ u 2 then (u 0, u 2, u 1) else (u 2, u 0, u 1)
  else
    if u 0 ≤ u 2 then (u 1, u 0, u 2)
    else if u 1 ≤ u 2 then (u 1, u 2, u 0) else (u 2, u 1, u 0)

/-- The probability vector built by `generate_any_policy` for one state
from its three uniform samples `u`: with `r = sorted(u)`,
`prob = [r[0], r[1] - r[0], r[2] - r[1], 1 - r[2]]`. -/
def anyProb (u : Fin 3 → ℚ) : Fin 4 → ℚ := fun i =>
  let r := sort3 u
  ![r.1, r.2.1 - r.1, r.2.2 - r.2.1, 1 - r.2.2] i

/-- Function `generate_any_policy`: per state, the gap construction `anyProb`
applied to that state's three `np.random.sample` draws `u s`. -/
def generate_any_policy (u : ℕ → Fin 3 → ℚ) : Policy := fun s => anyProb (u s)

/-- The probability vector built by `generate_greedy_policy` for one
state from its four action values: `1` at `np.argmax(q_values)`, `0`
elsewhere. -/
def greedyProb (q : Fin 4 → ℚ) : Fin 4 → ℚ := fun i =>
  if i = npArgmax q then 1 else 0

/-- Function `generate_greedy_policy`: per state `s`, scores every action via
`Q[s, a]` in the fixed action order and puts probability `1` on the
arg-max, `0` elsewhere. -/
def generate_greedy_policy (Q : ℕ → Fin 4 → ℚ) : Policy := fun s =>
  greedyProb (Q s)

/-- A probability vector over the four actions: non-negative entries
summing to `1`. -/
def IsDist (p : Fin 4 → ℚ) : Prop :=
  (∀ i, 0 ≤ p i) ∧ (∑ i, p i) = 1

/-- One loop iteration's worth of random draws for the operative
`generate_episode`: the two perturbation targets and the sampled
action index. -/
structure Choice where
  c1 : Fin 3
  c2 : Fin 3
  act : Fin 4
  deriving DecidableEq

/-- Loop of the operative `generate_episode` (notebook 2 cell 12).
Each iteration: apply `state_transition(current_state, action)`,
perturb the probability vector of `policy[current_state]` in place
(modelled by threading the updated policy), sample the next action from
the perturbed vector (`none` if the requested index has no probability
mass, which `np.random.choice` can never produce), append
`(next_state, action, reward)`, and stop once `next_state == 0`,
returning the accumulated episode without its final (terminal-arrival)
tuple together with the mutated policy.  An empty choice stream before
termination yields `none` (the Python loop would simply keep
running). -/
def genV2Go : List Choice → ℕ → Fin 4 → Policy → List CtrlStep →
    Option (List CtrlStep × Policy)
  | [], _, _, _, _ => none
  | ch :: rest, current, action, pol, acc =>
    if perturb (pol current) ch.c1 ch.c2 ch.act ≤ 0 then none
    else if (stateTransition current action).1 = 0 then
      some (acc, Function.update pol current (perturb (pol current) ch.c1 ch.c2))
    else
      genV2Go rest (stateTransition current action).1 ch.act
        (Function.update pol current (perturb (pol current) ch.c1 ch.c2))
        (acc ++ [((stateTransition current action).1, ch.act,
          (stateTransition current action).2)])

/-- The operative `generate_episode` (notebook 2 cell 12, the
definition that shadows cell 11's): starts from the forced
`(s0, a0)` with the placeholder first tuple `(s0, a0, -1)`. -/
def generate_episode (pol : Policy) (s0 : ℕ) (a0 : Fin 4)
    (cs : List Choice) : Option (List CtrlStep × Policy) :=
  genV2Go cs s0 a0 pol [(s0, a0, -1)]

/-- Loop of the first, shadowed `generate_episode` (notebook 2 cell
11).  Each iteration: transition, sample the next action directly from
`policy[current_state]` (no perturbation, no mutation), append
`(next_state, action, reward)`, set `done` once `next_state == 0` or
`len(episode) > 50`; after the loop the function returns `None` when
`len(episode) > 50` and the whole episode otherwise.  The outer
`Option` is `none` when the choice stream runs out first or a
zero-probability action is requested; the inner `Option` is the
function's own `None` failure value. -/
def genV1Go : List (Fin 4) → ℕ → Fin 4 → Policy → List CtrlStep →
    Option (Option (List CtrlStep))
  | [], _, _, _, _ => none
  | k :: rest, current, action, pol, acc =>
    if pol current k ≤ 0 then none
    else if (stateTransition current action).1 = 0 ∨
        (acc ++ [((stateTransition current action).1, k,
          (stateTransition current action).2)]).length > 50 then
      some (if (acc ++ [((stateTransition current action).1, k,
            (stateTransition current action).2)]).length > 50 then none
        else some (acc ++ [((stateTransition current action).1, k,
          (stateTransition current action).2)]))
    else
      genV1Go rest (stateTransition current action).1 k pol
        (acc ++ [((stateTransition current action).1, k,
          (stateTransition current action).2)])

/-- The first, shadowed `generate_episode` (notebook 2 cell 11): the
variant with the 50-step safety bound and the `None` failure value. -/
def generate_episode_v1 (pol : Policy) (s0 : ℕ) (a0 : Fin 4)
    (ks : List (Fin 4)) : Option (Option (List CtrlStep)) :=
  genV1Go ks s0 a0 pol [(s0, a0, -1)]

/-- Translation of `np.mean` of a list of observed returns. -/
def mean (l : List ℚ) : ℚ := l.sum / l.length

/-- Accumulator of `first_visit_mc` / `every_visit_mc` while scanning
one episode: the value array, the per-state returns table, and (for the
first-visit variant) the `already_visited` set. -/
structure PredAcc where
  values : ℕ → ℚ
  rets : ℕ → List ℚ
  visited : List ℕ

/-- Body of the `for s, r in episode` loop of `first_visit_mc`: when
`s` is not in `already_visited`, add it, locate
`idx = episode.index((s, r))` — the first position holding the value
`(s, r)` — compute the discounted return from `idx`, append it to
`returns[s]` and refresh `values[s] = np.mean(returns[s])`. -/
def fvStep (gamma : ℚ) (epi : List PredStep) (st : PredAcc)
    (p : PredStep) : PredAcc :=
  if p.1 ∈ st.visited then st
  else
    let idx := epi.findIdx (fun q => q = p)
    let G := predReturn gamma epi idx
    let r1 := st.rets p.1 ++ [G]
    { values := Function.update st.values p.1 (mean r1)
      rets := Function.update st.rets p.1 r1
      visited := p.1 :: st.visited }

/-- One episode's processing in `first_visit_mc`: scan the episode with
`already_visited` seeded with the terminal state `0`. -/
def fvEpisode (gamma : ℚ) (epi : List PredStep) (values : ℕ → ℚ)
    (rets : ℕ → List ℚ) : (ℕ → ℚ) × (ℕ → List ℚ) :=
  let st := epi.foldl (fvStep gamma epi) ⟨values, rets, [0]⟩
  (st.values, st.rets)

/-- Function `first_visit_mc`, with the episode sampler made explicit: the value
array starts as `np.zeros(len(env.states)+2)` (all 16 entries `0`) and
every state's returns list starts empty; each episode of the stream is
then processed by `fvEpisode`. -/
def first_visit_mc (gamma : ℚ) (episodes : List (List PredStep)) :
    (ℕ → ℚ) × (ℕ → List ℚ) :=
  episodes.foldl (fun vr epi => fvEpisode gamma epi vr.1 vr.2)
    (fun _ => 0, fun _ => [])

/-- Body of the `for s, r in episode` loop of `every_visit_mc`: for
every occurrence with `s != 0`, locate
`idx = episode.index((s, r))` — still the first position holding the
value `(s, r)` — compute the discounted return from `idx`, append it to
`returns[s]` and refresh `values[s]`. -/
def evStep (gamma : ℚ) (epi : List PredStep)
    (vr : (ℕ → ℚ) × (ℕ → List ℚ)) (p : PredStep) :
    (ℕ → ℚ) × (ℕ → List ℚ) :=
  if p.1 = 0 then vr
  else
    let idx := epi.findIdx (fun q => q = p)
    let G := predReturn gamma epi idx
    let r1 := vr.2 p.1 ++ [G]
    (Function.update vr.1 p.1 (mean r1), Function.update vr.2 p.1 r1)

/-- Function `every_visit_mc`, with the episode sampler made explicit. -/
def every_visit_mc (gamma : ℚ) (episodes : List (List PredStep)) :
    (ℕ → ℚ) × (ℕ → List ℚ) :=
  episodes.foldl (fun vr epi => epi.foldl (evStep gamma epi) vr)
    (fun _ => 0, fun _ => [])

/-- The mutable state of `monte_carlo_es` between iterations: the
action-value table `Q`, the returns table, and the current policy. -/
structure MCState where
  Q : ℕ → Fin 4 → ℚ
  rets : ℕ → Fin 4 → List ℚ
  pi : Policy

/-- Pointwise update of a two-argument table at one `(state, action)`
key. -/
def upd2 {α : Type} (f : ℕ → Fin 4 → α) (s : ℕ) (a : Fin 4) (v : α) :
    ℕ → Fin 4 → α := fun s1 a1 => if s1 = s ∧ a1 = a then v else f s1 a1

/-- Accumulator of the episode scan inside `monte_carlo_es`. -/
structure MCAcc where
  Q : ℕ → Fin 4 → ℚ
  rets : ℕ → Fin 4 → List ℚ
  visited : List (ℕ × Fin 4)

/-- Body of the `for s, a, r in episode` loop of `monte_carlo_es`: a
first-visit update keyed on the `(s, a)` pair, with
`idx = episode.index((s, a, r))` and the return computed by
`mcesReturn`. -/
def mcStep (gamma : ℚ) (epi : List CtrlStep) (st : MCAcc)
    (p : CtrlStep) : MCAcc :=
  if (p.1, p.2.1) ∈ st.visited then st
  else
    let idx := epi.findIdx (fun q => q = p)
    let G := mcesReturn gamma epi idx
    let r1 := st.rets p.1 p.2.1 ++ [G]
    { Q := upd2 st.Q p.1 p.2.1 (mean r1)
      rets := upd2 st.rets p.1 p.2.1 r1
      visited := (p.1, p.2.1) :: st.visited }

/-- One iteration's update section of `monte_carlo_es`, applied to
whatever `generate_episode` returned.  The body runs
`for s, a, r in episode` directly on the result with no failure check,
so a `None` episode raises a `TypeError` (iterating `None`), modelled
as `Except.error ()`; on an actual episode it scans the steps and then
rebuilds `pi = generate_greedy_policy(env, Q)`. -/
def mcUpdate (gamma : ℚ) (epiOpt : Option (List CtrlStep))
    (st : MCState) : Except Unit MCState :=
  match epiOpt with
  | none => Except.error ()
  | some epi =>
    let acc := epi.foldl (mcStep gamma epi) ⟨st.Q, st.rets, []⟩
    Except.ok ⟨acc.Q, acc.rets, generate_greedy_policy acc.Q⟩

/-- Function `state_action_value`: every `(state, action)` pair starts at the
sentinel `-1000`. -/
def state_action_value : ℕ → Fin 4 → ℚ := fun _ _ => -1000

/-- A concrete `monte_carlo_es` state as built by its init section:
sentinel `Q`, empty returns, and (one possible) initial policy. -/
def mcState0 : MCState :=
  ⟨state_action_value, fun _ _ => [], generate_random_policy⟩


/-- A choice step taking action `U` with both perturbation targets at
position `0` (the first index of the delete-list). -/
def cU : Choice := ⟨0, 0, 0⟩

/-- A choice step taking action `D` with both perturbation targets at
position `0`. -/
def cD : Choice := ⟨0, 0, 1⟩

/-- A choice step taking action `L` with both perturbation targets at
position `0`. -/
def cL : Choice := ⟨0, 0, 2⟩

/-- Choice stream for a ping-pong run of the operative
`generate_episode`: `n` round trips `5 → 9 → 5` followed by the exit
`5 → 9 → 5 → 4 → 0`. -/
def ppChoices (n : ℕ) : List Choice :=
  (List.replicate n [cU, cD]).flatten ++ [cU, cL, cU, cU]

/-- The episode steps appended by `ppChoices` after the initial tuple. -/
def ppTail (n : ℕ) : List CtrlStep :=
  (List.replicate n [((9:ℕ), (0:Fin 4), (-1:ℚ)), (5, 1, -1)]).flatten
    ++ [(9, 0, -1), (5, 2, -1), (4, 0, -1)]

/-- Choice stream for a four-step run `5 → 9 → 5 → 4 → 0` that perturbs
the probability vector of state `5` twice, with non-neutral targets. -/
def cs9 : List Choice := [⟨1, 1, 0⟩, ⟨0, 0, 2⟩, ⟨2, 2, 0⟩, ⟨0, 0, 0⟩]

/-- A three-step control episode with pairwise distinct rewards, used to
compare the two return recurrences. -/
def c1Episode : List CtrlStep := [(1, 0, 10), (2, 1, 20), (3, 2, 30)]

/-- A two-step control episode whose rewards are all `-1`, as every
episode of this gridworld has. -/
def c1wEpisode : List CtrlStep := [(5, 1, -1), (9, 0, -1)]

/-- The random walk `1 → 2 → 1 → terminal` of the prediction notebook:
the pair `(1, -1)` occurs at indices `0` and `2`. -/
def c2Episode : List PredStep := [(1, -1), (2, -1), (1, -1), (0, -1)]

/-- The fixed episode of the spec's §8 recurrence test, with reward `0`
recorded on the terminal arrival as the spec writes it. -/
def c5Episode : List PredStep := [(1, -1), (2, -1), (3, -1), (0, 0)]

/-- A single one-episode stream `1 → terminal` for the prediction
routines. -/
def c7wEpisodes : List (List PredStep) := [[(1, -1), (0, -1)]]

/-- Per-state uniform samples fixed at `1/2`, a valid draw of
`np.random.sample`. -/
def usW : ℕ → Fin 3 → ℚ := fun _ _ => 1/2

/-- The action-value table of the spec's §8 greedy test: `-1` on the
first action, `-5` on the rest. -/
def QW : ℕ → Fin 4 → ℚ := fun _ i => if i = 0 then -1 else -5

lemma npArgmax_le (p : Fin 4 → ℚ) (i : Fin 4) : p i ≤ p (npArgmax p) := by
  unfold npArgmax
  split_ifs with h1 h2 h3 h4 h5 h6 h7 <;> fin_cases i <;> simp_all <;> linarith

lemma npArgmax_first (p : Fin 4 → ℚ) (i : Fin 4)
    (h : p i = p (npArgmax p)) : npArgmax p ≤ i := by
  revert h
  unfold npArgmax
  split_ifs with h1 h2 h3 h4 h5 h6 h7 <;> fin_cases i <;> intro h <;>
    simp_all <;> linarith

lemma sum_update4 (f : Fin 4 → ℚ) (a : Fin 4) (b : ℚ) :
    (∑ i, Function.update f a b i) = (∑ i, f i) - f a + b := by
  rw [Finset.sum_update_of_mem (Finset.mem_univ a),
      Finset.sum_eq_sum_diff_singleton_add (Finset.mem_univ a) f]
  ring

lemma argmax_ge_quarter (p : Fin 4 → ℚ) (h1 : (∑ i, p i) = 1) :
    1/4 ≤ p (npArgmax p) := by
  have a0 := npArgmax_le p 0
  have a1 := npArgmax_le p 1
  have a2 := npArgmax_le p 2
  have a3 := npArgmax_le p 3
  have hs : p 0 + p 1 + p 2 + p 3 = 1 := by
    simpa [Fin.sum_univ_four] using h1
  linarith

lemma perturb_sum (p : Fin 4 → ℚ) (c1 c2 : Fin 3) :
    (∑ i, perturb p c1 c2 i) = (∑ i, p i) := by
  simp only [perturb]
  rw [sum_update4, sum_update4, sum_update4]
  ring

lemma update_nonneg (f : Fin 4 → ℚ) (a : Fin 4) (b : ℚ) (i : Fin 4)
    (hf : ∀ j, 0 ≤ f j) (hb : 0 ≤ b) : 0 ≤ Function.update f a b i := by
  rw [Function.update_apply]
  split_ifs
  · exact hb
  · exact hf i

lemma sort3_spec (u : Fin 3 → ℚ) (h : ∀ j, 0 ≤ u j ∧ u j < 1) :
    0 ≤ (sort3 u).1 ∧ (sort3 u).1 ≤ (sort3 u).2.1 ∧
      (sort3 u).2.1 ≤ (sort3 u).2.2 ∧ (sort3 u).2.2 < 1 := by
  obtain ⟨g0, g0h⟩ := h 0
  obtain ⟨g1, g1h⟩ := h 1
  obtain ⟨g2, g2h⟩ := h 2
  unfold sort3
  split_ifs <;> refine ⟨?_, ?_, ?_, ?_⟩ <;> simp_all <;> linarith

lemma anyProb_isDist (u : Fin 3 → ℚ) (h : ∀ j, 0 ≤ u j ∧ u j < 1) :
    IsDist (anyProb u) := by
  obtain ⟨s0, s1, s2, s3⟩ := sort3_spec u h
  constructor
  · intro i
    fin_cases i <;> simp [anyProb] <;> linarith
  · simp [anyProb, Fin.sum_univ_four]

lemma greedyProb_isDist (q : Fin 4 → ℚ) : IsDist (greedyProb q) := by
  constructor
  · intro i
    unfold greedyProb
    split_ifs <;> norm_num
  · simp [greedyProb, Finset.sum_ite_eq]

lemma fvStep_preserve (gamma : ℚ) (epi : List PredStep) (st : PredAcc)
    (p : PredStep) (hv : 0 ∈ st.visited) (hp : p.1 ≠ 15) :
    0 ∈ (fvStep gamma epi st p).visited
    ∧ (fvStep gamma epi st p).values 0 = st.values 0
    ∧ (fvStep gamma epi st p).values 15 = st.values 15 := by
  unfold fvStep
  split_ifs with hmem
  · exact ⟨hv, rfl, rfl⟩
  · have hne0 : p.1 ≠ 0 := fun h => hmem (h ▸ hv)
    refine ⟨List.mem_cons_of_mem _ hv, ?_, ?_⟩ <;>
      simp [Function.update_apply, Ne.symm hne0, Ne.symm hp]

lemma fv_foldl_preserve (gamma : ℚ) (epi : List PredStep) :
    ∀ (steps : List PredStep) (st : PredAcc),
    0 ∈ st.visited → (∀ p ∈ steps, p.1 ≠ 15) →
    0 ∈ (steps.foldl (fvStep gamma epi) st).visited
    ∧ (steps.foldl (fvStep gamma epi) st).values 0 = st.values 0
    ∧ (steps.foldl (fvStep gamma epi) st).values 15 = st.values 15 := by
  intro steps
  induction steps with
  | nil => intro st hv _; exact ⟨hv, rfl, rfl⟩
  | cons q rest ih =>
    intro st hv hall
    have hq := fvStep_preserve gamma epi st q hv (hall q (List.mem_cons_self q rest))
    have hrest := ih (fvStep gamma epi st q) hq.1
      (fun p hp => hall p (List.mem_cons_of_mem q hp))
    exact ⟨hrest.1, hrest.2.1.trans hq.2.1, hrest.2.2.trans hq.2.2⟩

lemma fv_mc_preserve (gamma : ℚ) :
    ∀ (episodes : List (List PredStep)) (vr : (ℕ → ℚ) × (ℕ → List ℚ)),
    (∀ epi ∈ episodes, ∀ p ∈ epi, p.1 ≠ 15) →
    (episodes.foldl (fun vr epi => fvEpisode gamma epi vr.1 vr.2) vr).1 0 = vr.1 0
    ∧ (episodes.foldl (fun vr epi => fvEpisode gamma epi vr.1 vr.2) vr).1 15 = vr.1 15 := by
  intro episodes
  induction episodes with
  | nil => intro vr _; exact ⟨rfl, rfl⟩
  | cons epi rest ih =>
    intro vr hall
    have h1 := fv_foldl_preserve gamma epi epi ⟨vr.1, vr.2, [0]⟩
      (List.mem_singleton.mpr rfl) (hall epi (List.mem_cons_self epi rest))
    have h2 := ih (fvEpisode gamma epi vr.1 vr.2)
      (fun e he => hall e (List.mem_cons_of_mem epi he))
    constructor
    · exact h2.1.trans h1.2.1
    · exact h2.2.trans h1.2.2

lemma evStep_preserve (gamma : ℚ) (epi : List PredStep)
    (vr : (ℕ → ℚ) × (ℕ → List ℚ)) (p : PredStep) (hp : p.1 ≠ 15) :
    (evStep gamma epi vr p).1 0 = vr.1 0
    ∧ (evStep gamma epi vr p).1 15 = vr.1 15 := by
  unfold evStep
  split_ifs with h0
  · exact ⟨rfl, rfl⟩
  · constructor <;> simp [Function.update_apply]
    · intro h; exact absurd h.symm h0
    · intro h; exact absurd h.symm hp

lemma ev_mc_preserve (gamma : ℚ) :
    ∀ (episodes : List (List PredStep)) (vr : (ℕ → ℚ) × (ℕ → List ℚ)),
    (∀ epi ∈ episodes, ∀ p ∈ epi, p.1 ≠ 15) →
    (episodes.foldl (fun vr epi => epi.foldl (evStep gamma epi) vr) vr).1 0 = vr.1 0
    ∧ (episodes.foldl (fun vr epi => epi.foldl (evStep gamma epi) vr) vr).1 15 = vr.1 15 := by
  intro episodes
  induction episodes with
  | nil => intro vr _; exact ⟨rfl, rfl⟩
  | cons epi rest ih =>
    intro vr hall
    have hone : ∀ (steps : List PredStep) (v : (ℕ → ℚ) × (ℕ → List ℚ)),
        (∀ p ∈ steps, p.1 ≠ 15) →
        (steps.foldl (evStep gamma epi) v).1 0 = v.1 0
        ∧ (steps.foldl (evStep gamma epi) v).1 15 = v.1 15 := by
      intro steps
      induction steps with
      | nil => intro v _; exact ⟨rfl, rfl⟩
      | cons q qrest qih =>
        intro v hq
        have h1 := evStep_preserve gamma epi v q (hq q (List.mem_cons_self q qrest))
        have h2 := qih (evStep gamma epi v q) (fun p hp => hq p (List.mem_cons_of_mem q hp))
        exact ⟨h2.1.trans h1.1, h2.2.trans h1.2⟩
    have h1 := hone epi vr (hall epi (List.mem_cons_self epi rest))
    have h2 := ih (epi.foldl (evStep gamma epi) vr)
      (fun e he => hall e (List.mem_cons_of_mem epi he))
    exact ⟨h2.1.trans h1.1, h2.2.trans h1.2⟩

lemma genV1Go_length_le (ks : List (Fin 4)) :
    ∀ (cur : ℕ) (act : Fin 4) (pol : Policy) (acc : List CtrlStep)
      (epi : List CtrlStep),
    genV1Go ks cur act pol acc = some (some epi) → epi.length ≤ 50 := by
  induction ks with
  | nil =>
    intro cur act pol acc epi h
    simp [genV1Go] at h
  | cons k rest ih =>
    intro cur act pol acc epi h
    unfold genV1Go at h
    by_cases hp : pol cur k ≤ 0
    · rw [if_pos hp] at h
      simp at h
    · rw [if_neg hp] at h
      by_cases hterm : (stateTransition cur act).1 = 0 ∨
          (acc ++ [((stateTransition cur act).1, k,
            (stateTransition cur act).2)]).length > 50
      · rw [if_pos hterm] at h
        by_cases hover : (acc ++ [((stateTransition cur act).1, k,
            (stateTransition cur act).2)]).length > 50
        · rw [if_pos hover] at h
          simp at h
        · rw [if_neg hover] at h
          rw [Option.some_inj, Option.some_inj] at h
          subst h
          simp only [List.length_append, List.length_singleton] at hover ⊢
          omega
      · rw [if_neg hterm] at h
        exact ih _ _ _ _ _ h

lemma upd_vec0 (a b c d x : ℚ) :
    Function.update ![a,b,c,d] (0:Fin 4) x = ![x,b,c,d] := by
  funext i
  fin_cases i <;> simp [Function.update_apply]

lemma upd_vec1 (a b c d x : ℚ) :
    Function.update ![a,b,c,d] (1:Fin 4) x = ![a,x,c,d] := by
  funext i
  fin_cases i <;> simp [Function.update_apply]

lemma upd_vec2 (a b c d x : ℚ) :
    Function.update ![a,b,c,d] (2:Fin 4) x = ![a,b,x,d] := by
  funext i
  fin_cases i <;> simp [Function.update_apply]

lemma upd_vec3 (a b c d x : ℚ) :
    Function.update ![a,b,c,d] (3:Fin 4) x = ![a,b,c,x] := by
  funext i
  fin_cases i <;> simp [Function.update_apply]

lemma uniform_vec : (fun _ : Fin 4 => (1/4:ℚ)) = ![1/4,1/4,1/4,1/4] := by
  funext i
  fin_cases i <;> simp

lemma perturb_eval (v v1 v2 v3 : Fin 4 → ℚ) (m0 m1 m2 : Fin 4) (c1 c2 : Fin 3)
    (hm0 : npArgmax v = m0)
    (h1 : Function.update v m0 (v m0 - 1/5) = v1)
    (hm1 : npArgmax v1 = m1)
    (h2 : Function.update v1 (delete4 m1 c1) (v1 (delete4 m1 c1) + 1/10) = v2)
    (hm2 : npArgmax v2 = m2)
    (h3 : Function.update v2 (delete4 m2 c2) (v2 (delete4 m2 c2) + 1/10) = v3) :
    perturb v c1 c2 = v3 := by
  simp only [perturb]
  rw [hm0, h1, hm1, h2, hm2, h3]

lemma perturb_unif00_vec :
    perturb ![(1/4:ℚ),1/4,1/4,1/4] 0 0 = ![(1/4:ℚ),1/4,1/4,1/4] := by
  apply perturb_eval _ ![(1/20:ℚ),1/4,1/4,1/4] ![(3/20:ℚ),1/4,1/4,1/4] _ 0 1 1
  · unfold npArgmax
    norm_num
  · have hx : (![(1/4:ℚ),1/4,1/4,1/4]) 0 - 1/5 = 1/20 := by norm_num
    rw [hx, upd_vec0]
  · unfold npArgmax
    norm_num
  · rw [show delete4 1 0 = 0 from by decide]
    have hx : (![(1/20:ℚ),1/4,1/4,1/4]) 0 + 1/10 = 3/20 := by norm_num
    rw [hx, upd_vec0]
  · unfold npArgmax
    norm_num
  · rw [show delete4 1 0 = 0 from by decide]
    have hx : (![(3/20:ℚ),1/4,1/4,1/4]) 0 + 1/10 = 1/4 := by norm_num
    rw [hx, upd_vec0]

lemma perturb_unif00 :
    perturb (fun _ : Fin 4 => (1/4:ℚ)) 0 0 = fun _ : Fin 4 => (1/4:ℚ) := by
  rw [uniform_vec]
  exact perturb_unif00_vec

lemma perturb_unif11_vec :
    perturb ![(1/4:ℚ),1/4,1/4,1/4] 1 1 = ![1/20, 7/20, 7/20, 1/4] := by
  apply perturb_eval _ ![(1/20:ℚ),1/4,1/4,1/4] ![(1/20:ℚ),1/4,7/20,1/4] _ 0 1 2
  · unfold npArgmax
    norm_num
  · have hx : (![(1/4:ℚ),1/4,1/4,1/4]) 0 - 1/5 = 1/20 := by norm_num
    rw [hx, upd_vec0]
  · unfold npArgmax
    norm_num
  · rw [show delete4 1 1 = 2 from by decide]
    have hx : (![(1/20:ℚ),1/4,1/4,1/4]) 2 + 1/10 = 7/20 := by norm_num
    rw [hx, upd_vec2]
  · unfold npArgmax
    norm_num
  · rw [show delete4 2 1 = 1 from by decide]
    have hx : (![(1/20:ℚ),1/4,7/20,1/4]) 1 + 1/10 = 7/20 := by norm_num
    rw [hx, upd_vec1]

lemma perturb_v1_22 :
    perturb ![(1/20:ℚ), 7/20, 7/20, 1/4] 2 2 = ![1/20, 3/20, 7/20, 9/20] := by
  apply perturb_eval _ ![(1/20:ℚ),3/20,7/20,1/4] ![(1/20:ℚ),3/20,7/20,7/20] _ 1 2 2
  · unfold npArgmax
    norm_num
  · have hx : (![(1/20:ℚ),7/20,7/20,1/4]) 1 - 1/5 = 3/20 := by norm_num
    rw [hx, upd_vec1]
  · unfold npArgmax
    norm_num
  · rw [show delete4 2 2 = 3 from by decide]
    have hx : (![(1/20:ℚ),3/20,7/20,1/4]) 3 + 1/10 = 7/20 := by norm_num
    rw [hx, upd_vec3]
  · unfold npArgmax
    norm_num
  · rw [show delete4 2 2 = 3 from by decide]
    have hx : (![(1/20:ℚ),3/20,7/20,7/20]) 3 + 1/10 = 9/20 := by norm_num
    rw [hx, upd_vec3]

lemma genV2Go_step (ch : Choice) (rest : List Choice) (cur : ℕ) (act : Fin 4)
    (pol : Policy) (acc : List CtrlStep) (prv prn : Fin 4 → ℚ) (nxt : ℕ) (rew : ℚ)
    (hpol : pol cur = prv) (hpert : perturb prv ch.c1 ch.c2 = prn)
    (hpos : 0 < prn ch.act) (hst : stateTransition cur act = (nxt, rew)) :
    genV2Go (ch :: rest) cur act pol acc =
      if nxt = 0 then some (acc, Function.update pol cur prn)
      else genV2Go rest nxt ch.act (Function.update pol cur prn)
        (acc ++ [(nxt, ch.act, rew)]) := by
  conv_lhs => rw [genV2Go]
  rw [hst]
  dsimp only
  rw [hpol, hpert]
  rw [if_neg (by linarith : ¬ prn ch.act ≤ 0)]

lemma update_rand_uniform (cur : ℕ) :
    Function.update generate_random_policy cur (fun _ : Fin 4 => (1/4:ℚ))
      = generate_random_policy := by
  funext s
  rw [Function.update_apply]
  split_ifs with h
  · rfl
  · rfl

lemma genV2Go_step_unif (c : Choice) (h1 : c.c1 = 0) (h2 : c.c2 = 0)
    (rest : List Choice) (cur : ℕ) (act : Fin 4) (acc : List CtrlStep)
    (nxt : ℕ) (rew : ℚ) (hst : stateTransition cur act = (nxt, rew)) :
    genV2Go (c :: rest) cur act generate_random_policy acc =
      if nxt = 0 then some (acc, generate_random_policy)
      else genV2Go rest nxt c.act generate_random_policy
        (acc ++ [(nxt, c.act, rew)]) := by
  have hpert : perturb (generate_random_policy cur) c.c1 c.c2
      = fun _ : Fin 4 => (1/4:ℚ) := by
    rw [h1, h2]
    exact perturb_unif00
  rw [genV2Go_step c rest cur act generate_random_policy acc
    (generate_random_policy cur) (fun _ : Fin 4 => (1/4:ℚ)) nxt rew rfl hpert
    (by norm_num) hst]
  rw [update_rand_uniform]

lemma pp_run (n : ℕ) : ∀ acc : List CtrlStep,
    genV2Go (ppChoices n) 5 1 generate_random_policy acc
      = some (acc ++ ppTail n, generate_random_policy) := by
  induction n with
  | zero =>
    intro acc
    have h0 : ppChoices 0 = [cU, cL, cU, cU] := by decide
    rw [h0]
    rw [genV2Go_step_unif cU rfl rfl _ 5 1 _ 9 (-1) rfl]
    rw [if_neg (by decide : ¬ (9:ℕ) = 0)]
    rw [genV2Go_step_unif cL rfl rfl _ 9 cU.act _ 5 (-1) rfl]
    rw [if_neg (by decide : ¬ (5:ℕ) = 0)]
    rw [genV2Go_step_unif cU rfl rfl _ 5 cL.act _ 4 (-1) rfl]
    rw [if_neg (by decide : ¬ (4:ℕ) = 0)]
    rw [genV2Go_step_unif cU rfl rfl _ 4 cU.act _ 0 (-1) rfl]
    rw [if_pos (rfl : (0:ℕ) = 0)]
    rw [List.append_assoc, List.append_assoc]
    rfl
  | succ n ih =>
    intro acc
    have hsucc : ppChoices (n + 1) = cU :: cD :: ppChoices n := by
      simp [ppChoices, List.replicate_succ]
    rw [hsucc]
    rw [genV2Go_step_unif cU rfl rfl _ 5 1 _ 9 (-1) rfl]
    rw [if_neg (by decide : ¬ (9:ℕ) = 0)]
    rw [genV2Go_step_unif cD rfl rfl _ 9 cU.act _ 5 (-1) rfl]
    rw [if_neg (by decide : ¬ (5:ℕ) = 0)]
    rw [show cD.act = 1 from rfl]
    rw [ih]
    have htail : ppTail (n + 1)
        = [((9:ℕ), (0:Fin 4), (-1:ℚ)), (5, 1, -1)] ++ ppTail n := by
      simp [ppTail, List.replicate_succ]
    rw [htail]
    rw [List.append_assoc, List.append_assoc]
    rfl

lemma update_self_of_eq (pol : Policy) (cur : ℕ) (v : Fin 4 → ℚ)
    (h : pol cur = v) : Function.update pol cur v = pol := by
  rw [← h]
  exact Function.update_eq_self cur pol

lemma genV1_witness_eval :
    generate_episode_v1 generate_random_policy 1 2 [0]
      = some (some [(1, 2, -1), (0, 0, -1)]) := by
  unfold generate_episode_v1 genV1Go
  rw [if_neg (by norm_num [generate_random_policy] :
    ¬ generate_random_policy 1 (0 : Fin 4) ≤ 0)]
  decide

/-- Claim C1, counterexample.  The return loop of `monte_carlo_es`,
`for j in range(idx, len(episode)-1)`, is not the §4.4 recurrence
quoted by the claim: on the concrete episode
`[(1,U,10), (2,D,20), (3,L,30)]` with `gamma = 1/2` and first index
`0`, the code folds the rewards `10, 20` (index `0` included, final
index excluded) and yields `25/2`, while the claimed recurrence folds
`20, 30` (index `0` excluded, final index included) and yields `20`. -/
theorem c1_counterexample :
    mcesReturn (1/2) c1Episode 0 = 25/2 ∧ specReturn3 (1/2) c1Episode 0 = 20
    ∧ (25/2 : ℚ) ≠ 20 := by
  refine ⟨?_, ?_, by norm_num⟩
  · simp [mcesReturn, discountAcc, c1Episode, ctrlReward]
    norm_num
  · simp [specReturn3, discountAcc, c1Episode, ctrlReward]
    norm_num

/-- Claim C1, amended.  In `monte_carlo_es` the return for a visit at
index `i` folds the rewards at indices `i .. len-2` (the reward stored
at index `i` included, the reward at the final index excluded); on any
episode whose recorded rewards are all equal — as in every episode this
program generates, where every recorded reward is `-1` — the resulting
value coincides with the §4.4 recurrence relative to `i`. -/
theorem c1_amended_constant_rewards (gamma c : ℚ) (epi : List CtrlStep)
    (idx : ℕ) (hidx : idx < epi.length) (hc : ∀ p ∈ epi, ctrlReward p = c) :
    mcesReturn gamma epi idx = specReturn3 gamma epi idx := by
  unfold mcesReturn specReturn3
  have hmem1 : ∀ x ∈ ((epi.map ctrlReward).take (epi.length - 1)).drop idx, x = c := by
    intro x hx
    have hx2 := List.mem_of_mem_drop hx
    have hx3 := List.mem_of_mem_take hx2
    obtain ⟨p, hp, rfl⟩ := List.mem_map.mp hx3
    exact hc p hp
  have hmem2 : ∀ x ∈ (epi.map ctrlReward).drop (idx + 1), x = c := by
    intro x hx
    have hx2 := List.mem_of_mem_drop hx
    obtain ⟨p, hp, rfl⟩ := List.mem_map.mp hx2
    exact hc p hp
  have hlen1 : (((epi.map ctrlReward).take (epi.length - 1)).drop idx).length
      = epi.length - 1 - idx := by
    simp [List.length_drop, List.length_take, List.length_map]
  have hlen2 : ((epi.map ctrlReward).drop (idx + 1)).length = epi.length - 1 - idx := by
    simp [List.length_drop, List.length_map]
    omega
  rw [List.eq_replicate_of_mem hmem1, List.eq_replicate_of_mem hmem2, hlen1, hlen2]

/-- Claim C1, witness for the amended theorem at the all-`-1` episode
`[(5,D,-1), (9,U,-1)]` with `gamma = 9/10` and index `0`. -/
theorem c1_amended_constant_rewards_witness :
    (0 < c1wEpisode.length)
    ∧ (∀ p ∈ c1wEpisode, ctrlReward p = -1)
    ∧ mcesReturn (9/10) c1wEpisode 0 = specReturn3 (9/10) c1wEpisode 0 := by
  have hlen : 0 < c1wEpisode.length := by decide
  have hc : ∀ p ∈ c1wEpisode, ctrlReward p = -1 := by decide
  exact ⟨hlen, hc, c1_amended_constant_rewards (9/10) (-1) c1wEpisode 0 hlen hc⟩

/-- Claim C2.  Evaluation of `every_visit_mc` at the failing input: on
the episode `1 → 2 → 1 → terminal` (all rewards `-1`, `gamma = 9/10`),
the second occurrence of state `1` at index `2` is resolved by
`episode.index((1, -1))` to the first occurrence's index `0`, so
`-2439/1000` is appended twice to `returns[1]`, while the return from
index `2`'s own position is `-9/10`. -/
theorem c2_failing_evaluation :
    (every_visit_mc (9/10) [c2Episode]).2 1 = [-2439/1000, -2439/1000]
    ∧ (every_visit_mc (9/10) [c2Episode]).1 1 = -2439/1000
    ∧ predReturn (9/10) c2Episode 2 = -9/10
    ∧ ((-2439:ℚ)/1000) ≠ -9/10 := by
  refine ⟨?_, ?_, ?_, by norm_num⟩
  · simp [every_visit_mc, evStep, c2Episode, predReturn, discountAcc, mean,
      List.findIdx_cons, Function.update_apply]
    norm_num
  · simp [every_visit_mc, evStep, c2Episode, predReturn, discountAcc, mean,
      List.findIdx_cons, Function.update_apply]
    norm_num
  · simp [predReturn, discountAcc, c2Episode]
    norm_num

/-- Claim C3, counterexample.  The operative `generate_episode` (the
second definition, which shadows the bounded first one) has no safety
step bound and no `None` path: the ping-pong run `ppChoices 24` — a
run every step of which samples an action of positive probability —
returns an episode of length `52 > 50` instead of the failure value. -/
theorem c3_counterexample :
    (generate_episode generate_random_policy 5 1 (ppChoices 24)).map
        (fun r => r.1.length) = some 52 ∧ (50:ℕ) < 52 := by
  constructor
  · unfold generate_episode
    rw [pp_run 24]
    have hlen : (ppTail 24).length = 51 := by decide
    simp [hlen]
  · decide

/-- Claim C3, amended.  The bound contract holds of the first, shadowed
definition of `generate_episode` (notebook 2 cell 11): whenever it
returns an episode rather than its `None` failure value, that episode
is no longer than 50 steps — an overrun can only surface as `None`,
never as a truncated or longer episode. -/
theorem c3_v1_bound (pol : Policy) (s0 : ℕ) (a0 : Fin 4)
    (ks : List (Fin 4)) (epi : List CtrlStep)
    (h : generate_episode_v1 pol s0 a0 ks = some (some epi)) :
    epi.length ≤ 50 :=
  genV1Go_length_le ks s0 a0 pol [(s0, a0, -1)] epi h

/-- Claim C3, witness for the amended theorem: the one-step run
`1 → terminal` under the random policy returns a two-step episode,
which is within the bound. -/
theorem c3_v1_bound_witness :
    generate_episode_v1 generate_random_policy 1 2 [0]
      = some (some [(1, 2, -1), (0, 0, -1)])
    ∧ ([((1:ℕ), (2:Fin 4), (-1:ℚ)), (0, 0, -1)] : List CtrlStep).length ≤ 50 :=
  ⟨genV1_witness_eval,
    c3_v1_bound generate_random_policy 1 2 [0] _ genV1_witness_eval⟩

/-- Claim C4, counterexample.  The update section of `monte_carlo_es`
has no failure check: fed the `None` failure value, `for s, a, r in
episode` raises (modelled as `Except.error`) instead of skipping the
iteration with the state unchanged. -/
theorem c4_counterexample :
    mcUpdate (9/10) none mcState0 = Except.error ()
    ∧ (Except.error () : Except Unit MCState) ≠ Except.ok mcState0 := by
  constructor
  · rfl
  · intro h
    exact absurd h (by simp)

/-- Claim C4, amended.  The control loop contains no failure handling
at all: on any actual episode the update section completes normally,
and on the `None` failure value it raises — it never "skips and
continues".  No failure value can reach it in practice only because the
operative `generate_episode` has no `None`-returning path. -/
theorem c4_amended_no_failure_handling :
    (∀ (gamma : ℚ) (epi : List CtrlStep) (st : MCState),
      ∃ st2, mcUpdate gamma (some epi) st = Except.ok st2)
    ∧ (∀ (gamma : ℚ) (st : MCState), mcUpdate gamma none st = Except.error ()) :=
  ⟨fun _ _ _ => ⟨_, rfl⟩, fun _ _ => rfl⟩

/-- Claim C5, counterexample.  On the fixed episode
`[(s0,a0,-1), (s1,a1,-1), (s2,a2,-1), (0,_,0)]` with `gamma = 9/10`,
the stated right-to-left recurrence over `j = 1 .. 3` yields exactly
`-1539/1000 = -1.539`, not `-2.71`: the difference is `1.171`, far
outside any floating tolerance. -/
theorem c5_counterexample :
    predReturn (9/10) c5Episode 0 = -1539/1000
    ∧ ¬ |(-1539/1000 : ℚ) - (-271/100)| < 1/100 := by
  constructor
  · simp [predReturn, discountAcc, c5Episode]
    norm_num
  · have hd : (-1539/1000 : ℚ) - (-271/100) = 1171/1000 := by norm_num
    rw [hd, abs_of_pos (by norm_num : (0:ℚ) < 1171/1000)]
    norm_num

/-- Claim C5, amended.  The first-visit return of the stated recurrence
for the fixed episode at index `0` equals `-1.539` exactly
(`0.9·(0.9·(0.9·(0+(-1))+(-1))+0)`). -/
theorem c5_amended_value : predReturn (9/10) c5Episode 0 = -1539/1000 := by
  simp [predReturn, discountAcc, c5Episode]
  norm_num

/-- Claim C6.  Every policy produced by the three generators is a
probability distribution per state: `generate_random_policy` puts
exactly `0.25` on each of the four actions, `generate_any_policy`
(for any per-state samples drawn from `[0,1)`) and
`generate_greedy_policy` produce non-negative vectors summing to `1`. -/
theorem c6_policy_distributions (us : ℕ → Fin 3 → ℚ) (Q : ℕ → Fin 4 → ℚ)
    (s : ℕ) (h : ∀ j, 0 ≤ us s j ∧ us s j < 1) :
    (∀ i, generate_random_policy s i = 1/4)
    ∧ IsDist (generate_random_policy s)
    ∧ IsDist (generate_any_policy us s)
    ∧ IsDist (generate_greedy_policy Q s) := by
  refine ⟨fun i => rfl, ⟨fun i => by norm_num [generate_random_policy], ?_⟩,
    anyProb_isDist (us s) h, greedyProb_isDist (Q s)⟩
  rw [Fin.sum_univ_four]
  norm_num [generate_random_policy]

/-- Claim C6, witness at state `1` with all three samples `1/2` and the
sentinel table `state_action_value`. -/
theorem c6_policy_distributions_witness :
    (∀ j, 0 ≤ usW 1 j ∧ usW 1 j < 1)
    ∧ ((∀ i, generate_random_policy 1 i = 1/4)
      ∧ IsDist (generate_random_policy 1)
      ∧ IsDist (generate_any_policy usW 1)
      ∧ IsDist (generate_greedy_policy state_action_value 1)) := by
  have h : ∀ j, 0 ≤ usW 1 j ∧ usW 1 j < 1 := by
    intro j
    constructor <;> norm_num [usW]
  exact ⟨h, c6_policy_distributions usW state_action_value 1 h⟩

/-- Claim C7.  After any number of prediction iterations of either
variant, the value array is still exactly `0` at the two terminal
positions, indices `0` and `15`: index `0` is gated out of every update
(seeded into `already_visited`, and tested by `s != 0`), and no episode
of this gridworld ever records state `15`, the other terminal corner
being reported as `0` by the environment. -/
theorem c7_terminal_zero (gamma : ℚ) (episodes : List (List PredStep))
    (h : ∀ epi ∈ episodes, ∀ p ∈ epi, p.1 ≠ 15) :
    (first_visit_mc gamma episodes).1 0 = 0
    ∧ (first_visit_mc gamma episodes).1 15 = 0
    ∧ (every_visit_mc gamma episodes).1 0 = 0
    ∧ (every_visit_mc gamma episodes).1 15 = 0 := by
  have h1 := fv_mc_preserve gamma episodes (fun _ => 0, fun _ => []) h
  have h2 := ev_mc_preserve gamma episodes (fun _ => 0, fun _ => []) h
  exact ⟨h1.1, h1.2, h2.1, h2.2⟩

/-- Claim C7, witness on the one-episode stream `1 → terminal` with
`gamma = 9/10`. -/
theorem c7_terminal_zero_witness :
    (∀ epi ∈ c7wEpisodes, ∀ p ∈ epi, p.1 ≠ 15)
    ∧ ((first_visit_mc (9/10) c7wEpisodes).1 0 = 0
      ∧ (first_visit_mc (9/10) c7wEpisodes).1 15 = 0
      ∧ (every_visit_mc (9/10) c7wEpisodes).1 0 = 0
      ∧ (every_visit_mc (9/10) c7wEpisodes).1 15 = 0) := by
  have h : ∀ epi ∈ c7wEpisodes, ∀ p ∈ epi, p.1 ≠ 15 := by decide
  exact ⟨h, c7_terminal_zero (9/10) c7wEpisodes h⟩

/-- Claim C8.  For every state and action-value table,
`generate_greedy_policy` puts probability `1` on `np.argmax` of the
four action values — which attains the maximum, the lowest index
winning ties — and `0` on every other action. -/
theorem c8_greedy_tiebreak (Q : ℕ → Fin 4 → ℚ) (s : ℕ) :
    (∀ i, Q s i ≤ Q s (npArgmax (Q s)))
    ∧ (∀ i, Q s i = Q s (npArgmax (Q s)) → npArgmax (Q s) ≤ i)
    ∧ generate_greedy_policy Q s (npArgmax (Q s)) = 1
    ∧ (∀ i, i ≠ npArgmax (Q s) → generate_greedy_policy Q s i = 0) := by
  refine ⟨npArgmax_le (Q s), npArgmax_first (Q s), ?_, ?_⟩
  · simp [generate_greedy_policy, greedyProb]
  · intro i hi
    simp [generate_greedy_policy, greedyProb, hi]

/-- Claim C8, witness on the spec's §8 table (`-1` on the first action,
`-5` elsewhere) at state `3`: the arg-max is action `0`, it gets
probability `1`, and action `1` gets probability `0`. -/
theorem c8_greedy_tiebreak_witness :
    npArgmax (QW 3) = 0
    ∧ generate_greedy_policy QW 3 (npArgmax (QW 3)) = 1
    ∧ ((1 : Fin 4) ≠ npArgmax (QW 3))
    ∧ generate_greedy_policy QW 3 1 = 0 := by
  have hm : npArgmax (QW 3) = 0 := by decide
  refine ⟨hm, (c8_greedy_tiebreak QW 3).2.2.1, ?_,
    (c8_greedy_tiebreak QW 3).2.2.2 1 (by rw [hm]; decide)⟩
  rw [hm]
  decide

/-- Claim C9.  The operative `generate_episode` writes the exploration
perturbation through the alias `pr = policy[current_state][1]`: after
the four-step run `cs9` starting from the equiprobable policy, the
caller's policy holds at state `5` — visited twice — the cumulative
double perturbation `perturb (perturb (policy 5) 1 1) 2 2`, a vector
different from the one it held before the call. -/
theorem c9_policy_mutated_in_place :
    ∃ polF : Policy,
      generate_episode generate_random_policy 5 1 cs9
        = some ([(5, 1, -1), (9, 0, -1), (5, 2, -1), (4, 0, -1)], polF)
      ∧ polF 5 = perturb (perturb (generate_random_policy 5) 1 1) 2 2
      ∧ polF 5 ≠ generate_random_policy 5 := by
  have hpol2 : Function.update generate_random_policy 5
      ![(1/20:ℚ), 7/20, 7/20, 1/4] 9 = fun _ : Fin 4 => (1/4:ℚ) := by
    rw [Function.update_noteq (by decide : (9:ℕ) ≠ 5)]
    rfl
  have hpol4 : Function.update
      (Function.update generate_random_policy 5 ![(1/20:ℚ), 7/20, 7/20, 1/4])
      5 ![(1/20:ℚ), 3/20, 7/20, 9/20] 4 = fun _ : Fin 4 => (1/4:ℚ) := by
    rw [Function.update_noteq (by decide : (4:ℕ) ≠ 5),
        Function.update_noteq (by decide : (4:ℕ) ≠ 5)]
    rfl
  have hrun : generate_episode generate_random_policy 5 1 cs9
      = some ([(5, 1, -1), (9, 0, -1), (5, 2, -1), (4, 0, -1)],
          Function.update
            (Function.update generate_random_policy 5 ![(1/20:ℚ), 7/20, 7/20, 1/4])
            5 ![(1/20:ℚ), 3/20, 7/20, 9/20]) := by
    unfold generate_episode cs9
    rw [genV2Go_step ⟨1, 1, 0⟩ _ 5 1 generate_random_policy _
      (fun _ : Fin 4 => (1/4:ℚ)) ![(1/20:ℚ), 7/20, 7/20, 1/4] 9 (-1) rfl
      (by rw [uniform_vec]; exact perturb_unif11_vec)
      (by norm_num) rfl]
    rw [if_neg (by decide : ¬ (9:ℕ) = 0)]
    rw [genV2Go_step ⟨0, 0, 2⟩ _ 9 (⟨1, 1, 0⟩ : Choice).act
      (Function.update generate_random_policy 5 ![(1/20:ℚ), 7/20, 7/20, 1/4]) _
      (fun _ : Fin 4 => (1/4:ℚ)) (fun _ : Fin 4 => (1/4:ℚ)) 5 (-1)
      hpol2 perturb_unif00 (by norm_num) rfl]
    rw [if_neg (by decide : ¬ (5:ℕ) = 0)]
    rw [update_self_of_eq _ 9 _ hpol2]
    rw [genV2Go_step ⟨2, 2, 0⟩ _ 5 (⟨0, 0, 2⟩ : Choice).act
      (Function.update generate_random_policy 5 ![(1/20:ℚ), 7/20, 7/20, 1/4]) _
      ![(1/20:ℚ), 7/20, 7/20, 1/4] ![(1/20:ℚ), 3/20, 7/20, 9/20] 4 (-1)
      (Function.update_same 5 ![(1/20:ℚ), 7/20, 7/20, 1/4] generate_random_policy)
      perturb_v1_22 (by norm_num) rfl]
    rw [if_neg (by decide : ¬ (4:ℕ) = 0)]
    rw [genV2Go_step ⟨0, 0, 0⟩ _ 4 (⟨2, 2, 0⟩ : Choice).act _ _
      (fun _ : Fin 4 => (1/4:ℚ)) (fun _ : Fin 4 => (1/4:ℚ)) 0 (-1)
      hpol4 perturb_unif00 (by norm_num) rfl]
    rw [if_pos (rfl : (0:ℕ) = 0)]
    rw [update_self_of_eq _ 4 _ hpol4]
    rfl
  refine ⟨_, hrun, ?_, ?_⟩
  · rw [Function.update_same]
    have h5 : generate_random_policy 5 = fun _ : Fin 4 => (1/4:ℚ) := rfl
    rw [h5, uniform_vec, perturb_unif11_vec, perturb_v1_22]
  · rw [Function.update_same]
    intro h
    have h0 := congrFun h 0
    norm_num [generate_random_policy] at h0

/-- Claim C10.  The exploration perturbation preserves validity of the
probability vector: any 4-entry non-negative vector summing to `1` has
maximum at least `1/4 > 1/5`, and subtracting `1/5` from its arg-max
then adding `1/10` to two (possibly equal) entries chosen among the
current non-arg-max indices yields a vector that still sums to `1` with
all entries non-negative. -/
theorem c10_perturb_keeps_distribution (p : Fin 4 → ℚ) (c1 c2 : Fin 3)
    (h0 : ∀ i, 0 ≤ p i) (h1 : (∑ i, p i) = 1) :
    1/4 ≤ p (npArgmax p) ∧ IsDist (perturb p c1 c2) := by
  have hmax := argmax_ge_quarter p h1
  have hp1 : ∀ j, 0 ≤ Function.update p (npArgmax p) (p (npArgmax p) - 1/5) j :=
    fun j => update_nonneg _ _ _ _ h0 (by linarith)
  refine ⟨hmax, ?_, ?_⟩
  · intro i
    simp only [perturb]
    apply update_nonneg
    · intro j
      apply update_nonneg _ _ _ _ hp1
      linarith [hp1 (delete4 (npArgmax (Function.update p (npArgmax p) (p (npArgmax p) - 1/5))) c1)]
    · have h2 : ∀ j, 0 ≤ Function.update
          (Function.update p (npArgmax p) (p (npArgmax p) - 1/5))
          (delete4 (npArgmax (Function.update p (npArgmax p) (p (npArgmax p) - 1/5))) c1)
          (Function.update p (npArgmax p) (p (npArgmax p) - 1/5)
            (delete4 (npArgmax (Function.update p (npArgmax p) (p (npArgmax p) - 1/5))) c1) + 1/10) j := by
        intro j
        apply update_nonneg _ _ _ _ hp1
        linarith [hp1 (delete4 (npArgmax (Function.update p (npArgmax p) (p (npArgmax p) - 1/5))) c1)]
      linarith [h2 (delete4 (npArgmax (Function.update
          (Function.update p (npArgmax p) (p (npArgmax p) - 1/5))
          (delete4 (npArgmax (Function.update p (npArgmax p) (p (npArgmax p) - 1/5))) c1)
          (Function.update p (npArgmax p) (p (npArgmax p) - 1/5)
            (delete4 (npArgmax (Function.update p (npArgmax p) (p (npArgmax p) - 1/5))) c1) + 1/10))) c2)]
  · rw [perturb_sum]
    exact h1

/-- Claim C10, witness at the equiprobable vector with both choices at
position `0`. -/
theorem c10_perturb_keeps_distribution_witness :
    (∀ i : Fin 4, 0 ≤ generate_random_policy 0 i)
    ∧ ((∑ i, generate_random_policy 0 i) = 1)
    ∧ (1/4 ≤ generate_random_policy 0 (npArgmax (generate_random_policy 0))
      ∧ IsDist (perturb (generate_random_policy 0) 0 0)) := by
  have h0 : ∀ i : Fin 4, 0 ≤ generate_random_policy 0 i := fun i => by
    norm_num [generate_random_policy]
  have h1 : (∑ i, generate_random_policy 0 i) = 1 := by
    rw [Fin.sum_univ_four]
    norm_num [generate_random_policy]
  exact ⟨h0, h1, c10_perturb_keeps_distribution (generate_random_policy 0) 0 0 h0 h1⟩

end TabularRL
